import Mathlib

/-!
Shallow embedding of the interactive terminal widget of cosmic-term
(src/terminal_box.rs): the widget data model, the input-event handler
on_event and the draw routine, together with theorems that settle the
specification's claims about them.

Machine floating-point values (f32) are modelled as exact rationals and
Instant/Duration as rational time stamps; byte sequences are lists of
naturals.
-/

namespace CosmicTerm

/-- Click classification kinds (source: enum ClickKind). -/
inductive ClickKind
  | Single
  | Double
  | Triple
  deriving DecidableEq, Repr

/-- Scroll commands accepted by the terminal session (TerminalScroll). -/
inductive TerminalScroll
  | Top
  | Bottom
  | PageUp
  | PageDown
  | Delta (lines : ℤ)
  deriving DecidableEq, Repr

/-- Calls issued to the terminal session by the event handler: raw input
bytes, relative/named scroll commands, and absolute scroll positions. -/
inductive TermCmd
  | input (bytes : List ℕ)
  | scroll (cmd : TerminalScroll)
  | scrollTo (fraction : ℚ)
  deriving DecidableEq, Repr

/-- Event status reported back to the host framework (iced Status). -/
inductive Status
  | Ignored
  | Captured
  deriving DecidableEq, Repr

/-- Keyboard modifier snapshot (iced Modifiers; logo is the Super key). -/
structure Modifiers where
  shift : Bool
  control : Bool
  alt : Bool
  logo : Bool
  deriving DecidableEq, Repr

/-- Modifiers.empty: the all-false modifier set. -/
def Modifiers.empty : Modifiers := ⟨false, false, false, false⟩

/-- Named keys of the KeyPressed match in on_event. F covers the function
keys F1 to F12 and Other any key code without an arm in the source match. -/
inductive KeyCode
  | Backspace
  | Tab
  | Enter
  | Escape
  | Up
  | Down
  | Right
  | Left
  | End
  | Home
  | Insert
  | Delete
  | PageUp
  | PageDown
  | F (n : ℕ)
  | Other
  deriving DecidableEq, Repr

/-- Axis-aligned rectangle (iced Rectangle of f32). -/
structure Rect where
  x : ℚ
  y : ℚ
  width : ℚ
  height : ℚ
  deriving DecidableEq, Repr

/-- Rectangle.default in iced: the all-zero rectangle. -/
def Rect.zero : Rect := ⟨0, 0, 0, 0⟩

/-- Rect.containsP mirrors iced Rectangle::contains: closed on the
top/left edges, open on the bottom/right edges. -/
def Rect.containsP (r : Rect) (px py : ℚ) : Prop :=
  r.x ≤ px ∧ px < r.x + r.width ∧ r.y ≤ py ∧ py < r.y + r.height

instance (r : Rect) (px py : ℚ) : Decidable (r.containsP px py) :=
  inferInstanceAs (Decidable
    (r.x ≤ px ∧ px < r.x + r.width ∧ r.y ≤ py ∧ py < r.y + r.height))

/-- Drag state of the widget (source: enum Dragging). -/
inductive Dragging
  | Buffer
  | Scrollbar (start_y : ℚ) (start_scroll : ℚ × ℚ)
  deriving DecidableEq, Repr

/-- Per-widget interaction state (source: struct State). -/
structure State where
  modifiers : Modifiers
  click : Option (ClickKind × ℚ)
  dragging : Option Dragging
  scale_factor : ℚ
  scroll_pixels : ℚ
  scrollbar_rect : Rect
  deriving DecidableEq, Repr

/-- State.new: the freshly created widget state (source: State::new). -/
def State.new : State :=
  { modifiers := Modifiers.empty
    click := none
    dragging := none
    scale_factor := 1
    scroll_pixels := 0
    scrollbar_rect := Rect.zero }

/-- Modelled from the spec: the terminal session (crate::Terminal) is not
under src; section 6 of the spec gives its interface. Only the parts a
claim reads back are modelled: scroll_to clamps its argument to [0,1] and
stores it, and scrollbar() reports (start_fraction, end_fraction) of the
thumb, the start fraction being the stored scroll position. Input bytes
and relative scroll commands are recorded externally as TermCmd values
and do not feed back into any quantity the event handler reads. -/
structure Terminal where
  scroll_frac : ℚ
  thumb_frac : ℚ
  deriving DecidableEq, Repr

/-- Modelled from the spec: scroll_to(fraction) with clamping to [0,1]. -/
def Terminal.scroll_to (t : Terminal) (fraction : ℚ) : Terminal :=
  { t with scroll_frac := max 0 (min 1 fraction) }

/-- Modelled from the spec: scrollbar() returning the thumb fraction pair. -/
def Terminal.scrollbar (t : Terminal) : ℚ × ℚ :=
  (t.scroll_frac, t.scroll_frac + t.thumb_frac)

/-- Mouse buttons (iced mouse::Button). -/
inductive Button
  | Left
  | Right
  | Middle
  deriving DecidableEq, Repr

/-- Wheel deltas (iced mouse::ScrollDelta). -/
inductive ScrollDelta
  | Lines (x y : ℚ)
  | Pixels (x y : ℚ)
  deriving DecidableEq, Repr

/-- Keyboard events reaching on_event. -/
inductive KeyEvent
  | KeyPressed (key_code : KeyCode) (modifiers : Modifiers)
  | ModifiersChanged (modifiers : Modifiers)
  | CharacterReceived (character : Char)
  deriving DecidableEq, Repr

/-- Mouse events reaching on_event; CursorMoved carries no payload since
the handler reads the position from the cursor argument. -/
inductive MouseEvent
  | ButtonPressed (button : Button)
  | ButtonReleased (button : Button)
  | CursorMoved
  | WheelScrolled (delta : ScrollDelta)
  deriving DecidableEq, Repr

/-- Events delivered by the host framework. -/
inductive Event
  | Keyboard (k : KeyEvent)
  | Mouse (m : MouseEvent)
  deriving DecidableEq, Repr

/-- The ambient data on_event reads besides the widget state: widget
configuration (padding, click_timing), layout bounds, the cursor
position, the wall clock, and the terminal buffer queries (size in
device pixels and the metrics line height). -/
structure Env where
  padding_left : ℚ
  padding_top : ℚ
  click_timing : ℚ
  now : ℚ
  bounds_x : ℚ
  bounds_y : ℚ
  bounds_w : ℚ
  bounds_h : ℚ
  cursor : Option (ℚ × ℚ)
  buffer_w : ℚ
  buffer_h : ℚ
  line_height : ℚ
  deriving DecidableEq, Repr

/-- Layout bounds of the widget as a rectangle. -/
def Env.boundsRect (env : Env) : Rect :=
  ⟨env.bounds_x, env.bounds_y, env.bounds_w, env.bounds_h⟩

/-- Cursor position relative to the layout bounds, when inside them
(iced Cursor::position_in). -/
def positionIn (env : Env) : Option (ℚ × ℚ) :=
  match env.cursor with
  | some (px, py) =>
      if env.boundsRect.containsP px py then
        some (px - env.bounds_x, py - env.bounds_y)
      else
        none
  | none => none

/-- Truncation of a rational toward zero, the rounding used by a Rust
float-to-integer cast; for negative arguments the floor of the negation
is negated, which is the ceiling. -/
def ratTrunc (q : ℚ) : ℤ :=
  if 0 ≤ q then ⌊q⌋ else -⌊-q⌋

/-- Rust saturating cast from f32 to i32: truncate toward zero and clamp
into the i32 range. -/
def asI32 (q : ℚ) : ℤ :=
  max (-(2 ^ 31)) (min (2 ^ 31 - 1) (ratTrunc q))

/-- UTF-8 encoding of a character, as char::encode_utf8 produces. -/
def charBytes (c : Char) : List ℕ :=
  let n := c.toNat
  if n < 0x80 then [n]
  else if n < 0x800 then [0xC0 + n / 0x40, 0x80 + n % 0x40]
  else if n < 0x10000 then
    [0xE0 + n / 0x1000, 0x80 + n / 0x40 % 0x40, 0x80 + n % 0x40]
  else
    [0xF0 + n / 0x40000, 0x80 + n / 0x1000 % 0x40, 0x80 + n / 0x40 % 0x40,
      0x80 + n % 0x40]

/-- Rust char::is_control: the Unicode Cc category, U+0000 to U+001F and
U+007F to U+009F. -/
def isControlChar (c : Char) : Bool :=
  c.toNat < 0x20 || (0x7F ≤ c.toNat && c.toNat ≤ 0x9F)

/-- Advance of the click kind on a qualifying repeated press
(source lines 451-455). -/
def nextClickKind : ClickKind → ClickKind
  | .Single => .Double
  | .Double => .Triple
  | .Triple => .Single

/-- Classification of a primary press against the stored click record
(source lines 448-461): advance when the record is younger than the
click timing, otherwise restart at Single. -/
def classifyClick (click : Option (ClickKind × ℚ)) (now timing : ℚ) :
    ClickKind :=
  match click with
  | some (click_kind, click_time) =>
      if now - click_time < timing then nextClickKind click_kind
      else ClickKind.Single
  | none => ClickKind.Single

/-- First wheel-pixel consumption loop (source lines 561-564): while the
accumulator is at or below minus one line height, peel off a line. The
source loop only terminates for a positive line height, so the guard
carries that bound. -/
def scrollLoopNeg (line_height acc : ℚ) (lines : ℤ) : ℚ × ℤ :=
  if h : 0 < line_height ∧ acc ≤ -line_height then
    scrollLoopNeg line_height (acc + line_height) (lines - 1)
  else
    (acc, lines)
termination_by (⌈-acc / line_height⌉).toNat
decreasing_by
  obtain ⟨hL, hacc⟩ := h
  have hL0 : line_height ≠ 0 := ne_of_gt hL
  have hdiv : -(acc + line_height) / line_height = -acc / line_height - 1 := by
    field_simp
    ring
  rw [hdiv, Int.ceil_sub_one]
  have hone : (1 : ℚ) ≤ -acc / line_height := by
    rw [le_div_iff₀ hL]
    linarith
  have hceil : (1 : ℤ) ≤ ⌈-acc / line_height⌉ := by
    exact_mod_cast Int.le_ceil_iff.mpr (by push_cast; linarith)
  omega

/-- Second wheel-pixel consumption loop (source lines 565-568): while the
accumulator is at or above one line height, peel off a line. -/
def scrollLoopPos (line_height acc : ℚ) (lines : ℤ) : ℚ × ℤ :=
  if h : 0 < line_height ∧ line_height ≤ acc then
    scrollLoopPos line_height (acc - line_height) (lines + 1)
  else
    (acc, lines)
termination_by (⌈acc / line_height⌉).toNat
decreasing_by
  obtain ⟨hL, hacc⟩ := h
  have hL0 : line_height ≠ 0 := ne_of_gt hL
  have hdiv : (acc - line_height) / line_height = acc / line_height - 1 := by
    field_simp
  rw [hdiv, Int.ceil_sub_one]
  have hone : (1 : ℚ) ≤ acc / line_height := by
    rw [le_div_iff₀ hL]
    linarith
  have hceil : (1 : ℤ) ≤ ⌈acc / line_height⌉ := by
    exact_mod_cast Int.le_ceil_iff.mpr (by push_cast; linarith)
  omega

/-- Handling of one wheel event in pixel units (source lines 556-571):
subtract six times the vertical delta from the running accumulator, then
run both consumption loops starting from a line count of zero. Returns
the new accumulator and the net line count of the event. -/
def pixelScrollStep (line_height acc y : ℚ) : ℚ × ℤ :=
  let acc := acc - y * 6
  let r := scrollLoopNeg line_height acc 0
  scrollLoopPos line_height r.1 r.2

/-- The full event handler (source: on_event, lines 296-581). The result
collects the updated widget state, the updated terminal model, the calls
issued to the terminal session in order, and the reported status. -/
structure EventResult where
  state : State
  terminal : Terminal
  cmds : List TermCmd
  status : Status
  deriving DecidableEq, Repr

/-- Byte sequences and status for the KeyPressed arms
(source lines 317-399). -/
def keyPressedAction (key_code : KeyCode) (modifiers : Modifiers) :
    List TermCmd × Status :=
  match key_code with
  | .Backspace => ([.input [0x08]], .Captured)
  | .Tab =>
      (if modifiers.shift then [.input [0x1B, 0x5B, 0x5A]]
       else [.input [0x09]], .Captured)
  | .Enter => ([.input [0x0A]], .Captured)
  | .Escape => ([.input [0x1B]], .Captured)
  | .Up => ([.input [0x1B, 0x5B, 0x41]], .Captured)
  | .Down => ([.input [0x1B, 0x5B, 0x42]], .Captured)
  | .Right => ([.input [0x1B, 0x5B, 0x43]], .Captured)
  | .Left => ([.input [0x1B, 0x5B, 0x44]], .Captured)
  | .End =>
      (if modifiers.shift then [.scroll .Bottom]
       else [.input [0x1B, 0x5B, 0x46]], .Captured)
  | .Home =>
      (if modifiers.shift then [.scroll .Top]
       else [.input [0x1B, 0x5B, 0x48]], .Captured)
  | .Insert => ([.input [0x1B, 0x5B, 0x32, 0x7E]], .Captured)
  | .Delete => ([.input [0x1B, 0x5B, 0x33, 0x7E]], .Captured)
  | .PageUp =>
      (if modifiers.shift then [.scroll .PageUp]
       else [.input [0x1B, 0x5B, 0x35, 0x7E]], .Captured)
  | .PageDown =>
      (if modifiers.shift then [.scroll .PageDown]
       else [.input [0x1B, 0x5B, 0x36, 0x7E]], .Captured)
  | .F _ => ([], .Ignored)
  | .Other => ([], .Ignored)

/-- Bytes sent for a received character depending on the stored modifier
snapshot (source lines 403-436): super drops the character, control
forwards only control characters, alt prefixes non-control characters
with ESC, no modifiers forwards non-control characters. -/
def characterInput (m : Modifiers) (c : Char) : List TermCmd :=
  if m.logo then []
  else if m.control then
    if isControlChar c then [.input (charBytes c)] else []
  else if m.alt then
    if !isControlChar c then [.input (0x1B :: charBytes c)] else []
  else
    if !isControlChar c then [.input (charBytes c)] else []

/-- The event handler itself, translated arm by arm from the source. -/
def on_event (env : Env) (term : Terminal) (s : State) (event : Event) :
    EventResult :=
  let scale_factor := s.scale_factor
  let scrollbar_rect := s.scrollbar_rect
  match event with
  | .Keyboard (.KeyPressed key_code modifiers) =>
      let r := keyPressedAction key_code modifiers
      ⟨s, term, r.1, r.2⟩
  | .Keyboard (.ModifiersChanged modifiers) =>
      ⟨{ s with modifiers := modifiers }, term, [], .Ignored⟩
  | .Keyboard (.CharacterReceived character) =>
      ⟨s, term, characterInput s.modifiers character, .Captured⟩
  | .Mouse (.ButtonPressed button) =>
      match positionIn env with
      | some (px, py) =>
          let r : State × Terminal × List TermCmd :=
            match button with
            | .Left =>
                let x_logical := px - env.padding_left
                let y_logical := py - env.padding_top
                let x := x_logical * scale_factor
                let y := y_logical * scale_factor
                if 0 ≤ x ∧ x < env.buffer_w ∧ 0 ≤ y ∧ y < env.buffer_h then
                  let click_kind :=
                    classifyClick s.click env.now env.click_timing
                  ({ s with
                      click := some (click_kind, env.now)
                      dragging := some .Buffer }, term, [])
                else if scrollbar_rect.containsP x_logical y_logical then
                  ({ s with
                      dragging := some (.Scrollbar y term.scrollbar) },
                    term, [])
                else if scrollbar_rect.x ≤ x_logical ∧
                    x_logical < scrollbar_rect.x + scrollbar_rect.width then
                  let scroll_ratio := y / env.buffer_h
                  let term2 := term.scroll_to scroll_ratio
                  ({ s with
                      dragging := some (.Scrollbar y term2.scrollbar) },
                    term2, [.scrollTo scroll_ratio])
                else
                  (s, term, [])
            | _ => (s, term, [])
          ⟨r.1, r.2.1, r.2.2, .Captured⟩
      | none => ⟨s, term, [], .Ignored⟩
  | .Mouse (.ButtonReleased .Left) =>
      ⟨{ s with dragging := none }, term, [], .Captured⟩
  | .Mouse .CursorMoved =>
      match s.dragging with
      | some dragging =>
          match env.cursor with
          | some (_px, py) =>
              let y_logical := (py - env.bounds_y) - env.padding_top
              let y := y_logical * scale_factor
              match dragging with
              | .Buffer => ⟨s, term, [], .Captured⟩
              | .Scrollbar start_y start_scroll =>
                  let scroll_offset := (y - start_y) / env.buffer_h
                  let target := start_scroll.1 + scroll_offset
                  ⟨s, term.scroll_to target, [.scrollTo target], .Captured⟩
          | none => ⟨s, term, [], .Captured⟩
      | none => ⟨s, term, [], .Ignored⟩
  | .Mouse (.WheelScrolled delta) =>
      match positionIn env with
      | some _ =>
          match delta with
          | .Lines _x y =>
              let s2 := { s with scroll_pixels := 0 }
              let lines := asI32 (-y * 6)
              if lines ≠ 0 then
                ⟨s2, term, [.scroll (.Delta (-lines))], .Captured⟩
              else
                ⟨s2, term, [], .Captured⟩
          | .Pixels _x y =>
              let r := pixelScrollStep env.line_height s.scroll_pixels y
              let s2 := { s with scroll_pixels := r.1 }
              if r.2 ≠ 0 then
                ⟨s2, term, [.scroll (.Delta (-r.2))], .Captured⟩
              else
                ⟨s2, term, [], .Captured⟩
      | none => ⟨s, term, [], .Ignored⟩
  | _ => ⟨s, term, [], .Ignored⟩

/-- A laid-out glyph as the draw loop sees it: horizontal offset, line
top, width, and the background color metadata. -/
structure Glyph where
  x : ℚ
  line_top : ℚ
  w : ℚ
  metadata : ℕ
  deriving DecidableEq, Repr

/-- The ambient data a draw call reads: viewport and layout geometry,
widget padding, style scale factor, the shaped glyph runs, the default
attribute metadata, buffer metrics and the terminal scrollbar fractions. -/
structure DrawEnv where
  viewport_w : ℚ
  viewport_h : ℚ
  layout_x : ℚ
  layout_y : ℚ
  layout_w : ℚ
  layout_h : ℚ
  padding_left : ℚ
  padding_right : ℚ
  padding_top : ℚ
  padding_bottom : ℚ
  scale_factor : ℚ
  glyphs : List Glyph
  default_metadata : ℕ
  line_height : ℚ
  scrollbar_start : ℚ
  scrollbar_end : ℚ
  deriving DecidableEq, Repr

/-- Draw primitives: filled quads and the raw text draw call, each with
its bounds. -/
inductive Primitive
  | quad (x y w h : ℚ)
  | raw (x y w h : ℚ)
  deriving DecidableEq, Repr

/-- Content box width in device pixels (source lines 190-192): clip the
layout width by the viewport, subtract horizontal padding and the fixed
scrollbar gutter of eight pixels, all cast to i32. -/
def drawViewW (env : DrawEnv) : ℤ :=
  min (asI32 env.viewport_w) (asI32 env.layout_w) -
    asI32 (env.padding_left + env.padding_right) - asI32 8

/-- Content box height in device pixels (source lines 193-194). -/
def drawViewH (env : DrawEnv) : ℤ :=
  min (asI32 env.viewport_h) (asI32 env.layout_h) -
    asI32 (env.padding_top + env.padding_bottom)

/-- The draw routine (source lines 169-294): early return on a
degenerate content box, else background quad, per-glyph highlight quads
for non-default metadata, the raw text draw, and the scrollbar thumb
quad, caching the scale factor and the thumb rectangle in the state. -/
def draw (env : DrawEnv) (s : State) : List Primitive × State :=
  let scrollbar_w : ℚ := 8
  let view_position_x := env.layout_x + env.padding_left
  let view_position_y := env.layout_y + env.padding_top
  let view_w := drawViewW env
  let view_h := drawViewH env
  if view_w ≤ 0 ∨ view_h ≤ 0 then
    ([], s)
  else
    let s1 := { s with scale_factor := env.scale_factor }
    let background :=
      Primitive.quad view_position_x view_position_y (view_w : ℚ) (view_h : ℚ)
    let cells :=
      (env.glyphs.filter (fun g => g.metadata != env.default_metadata)).map
        (fun g =>
          Primitive.quad (view_position_x + g.x)
            (view_position_y + g.line_top) g.w env.line_height)
    let text :=
      Primitive.raw view_position_x view_position_y (view_w : ℚ) (view_h : ℚ)
    let scrollbar_y := env.scrollbar_start * (view_h : ℚ)
    let scrollbar_h := env.scrollbar_end * (view_h : ℚ) - scrollbar_y
    let sb_rect : Rect := ⟨(view_w : ℚ), scrollbar_y, scrollbar_w, scrollbar_h⟩
    let thumb :=
      Primitive.quad (sb_rect.x + view_position_x)
        (sb_rect.y + view_position_y) scrollbar_w scrollbar_h
    let s2 := { s1 with scrollbar_rect := sb_rect }
    (background :: cells ++ [text, thumb], s2)

/-- Iterated press classification: classifyClick applied to press time
stamps in order, each press storing the record (kind, time) exactly as
the buffer-hit branch of on_event does. -/
def clickKindsAux (timing : ℚ) (record : Option (ClickKind × ℚ)) :
    List ℚ → List ClickKind
  | [] => []
  | t :: ts =>
      let k := classifyClick record t timing
      k :: clickKindsAux timing (some (k, t)) ts

/-- Click kinds of a press sequence starting with no stored record. -/
def clickKinds (timing : ℚ) (times : List ℚ) : List ClickKind :=
  clickKindsAux timing none times

/-- Gaps between consecutive time stamps all strictly below a threshold. -/
def gapsLt (timing : ℚ) : List ℚ → Prop
  | [] => True
  | [_] => True
  | a :: b :: rest => b - a < timing ∧ gapsLt timing (b :: rest)

/-- The period-three click cycle Single, Double, Triple, repeating. -/
def cycleKind3 (i : ℕ) : ClickKind :=
  match i % 3 with
  | 0 => .Single
  | 1 => .Double
  | _ => .Triple

/-- Folding wheel-pixel events: the final accumulator together with the
summed per-event line counts. -/
def pixelScrollRun (line_height acc : ℚ) : List ℚ → ℚ × ℤ
  | [] => (acc, 0)
  | y :: ys =>
      let r := pixelScrollStep line_height acc y
      let rest := pixelScrollRun line_height r.1 ys
      (rest.1, r.2 + rest.2)

/-- Folding pointer-move events through on_event, the cursor overridden
per move. Returns the final state, final terminal and all issued calls. -/
def runMoves (env : Env) (term : Terminal) (s : State) :
    List (ℚ × ℚ) → State × Terminal × List TermCmd
  | [] => (s, term, [])
  | p :: ps =>
      let r :=
        on_event { env with cursor := some p } term s (.Mouse .CursorMoved)
      let rest := runMoves env r.terminal r.state ps
      (rest.1, rest.2.1, r.cmds ++ rest.2.2)

/-- Folding arbitrary events through on_event, each with its own ambient
data. -/
def runEvents (term : Terminal) (s : State) : List (Env × Event) → State
  | [] => s
  | (env, e) :: rest =>
      let r := on_event env term s e
      runEvents r.terminal r.state rest

/-- The fraction of the last absolute scroll request in a call list. -/
def lastScrollTo (cmds : List TermCmd) : Option ℚ :=
  match cmds.getLast? with
  | some (.scrollTo f) => some f
  | _ => none

/-- Device-space vertical position of an absolute cursor position, as
the pointer handlers compute it from bounds, padding and scale. -/
def devY (env : Env) (sf py : ℚ) : ℚ :=
  ((py - env.bounds_y) - env.padding_top) * sf

/-- The drag state is idle or a buffer drag, never a scrollbar drag. -/
def noScrollbarDrag (s : State) : Prop :=
  s.dragging = none ∨ s.dragging = some Dragging.Buffer

/-- The left-button press event. -/
def leftPress : Event := .Mouse (.ButtonPressed .Left)

/-- A concrete ambient configuration used by witnesses: zero padding,
bounds 100 by 100 at the origin, buffer 80 by 60 device pixels, line
height 20, click timing 10, cursor at (10, 10), clock at 100. -/
def envC : Env :=
  { padding_left := 0
    padding_top := 0
    click_timing := 10
    now := 100
    bounds_x := 0
    bounds_y := 0
    bounds_w := 100
    bounds_h := 100
    cursor := some (10, 10)
    buffer_w := 80
    buffer_h := 60
    line_height := 20 }

/-- A concrete terminal model state used by witnesses. -/
def term0 : Terminal := { scroll_frac := 0, thumb_frac := 1 / 4 }

/-- A concrete state with only the Super (logo) modifier held. -/
def sLogo : State :=
  { State.new with
      modifiers := { shift := false, control := false, alt := false, logo := true } }

/-- A concrete state with only the Control modifier held. -/
def sCtrl : State :=
  { State.new with
      modifiers := { shift := false, control := true, alt := false, logo := false } }

/-- A concrete draw configuration whose layout is too narrow for the
scrollbar gutter, so the content box width is negative. -/
def envD : DrawEnv :=
  { viewport_w := 100
    viewport_h := 100
    layout_x := 0
    layout_y := 0
    layout_w := 4
    layout_h := 100
    padding_left := 0
    padding_right := 0
    padding_top := 0
    padding_bottom := 0
    scale_factor := 1
    glyphs := []
    default_metadata := 0
    line_height := 20
    scrollbar_start := 0
    scrollbar_end := 1 }

/-- C1: for every named key and modifier set of the table in section 4.5
of the spec, a KeyPressed event sends exactly the table's byte sequence
(Backspace 0x08; Tab 0x09 or ESC [ Z under Shift; Enter 0x0A; Escape
ESC; arrows ESC [ A, B, C, D; End ESC [ F; Home ESC [ H; Insert
ESC [ 2 tilde; Delete ESC [ 3 tilde; PageUp ESC [ 5 tilde; PageDown
ESC [ 6 tilde), and Shift+End, Shift+Home, Shift+PageUp and
Shift+PageDown issue the local scroll commands Bottom, Top, PageUp and
PageDown instead of sending bytes. -/
theorem key_table_byte_sequences (env : Env) (term : Terminal) (s : State)
    (m : Modifiers) :
    (on_event env term s (.Keyboard (.KeyPressed .Backspace m))).cmds =
        [.input [0x08]] ∧
    (on_event env term s (.Keyboard (.KeyPressed .Tab m))).cmds =
        (if m.shift then [.input [0x1B, 0x5B, 0x5A]] else [.input [0x09]]) ∧
    (on_event env term s (.Keyboard (.KeyPressed .Enter m))).cmds =
        [.input [0x0A]] ∧
    (on_event env term s (.Keyboard (.KeyPressed .Escape m))).cmds =
        [.input [0x1B]] ∧
    (on_event env term s (.Keyboard (.KeyPressed .Up m))).cmds =
        [.input [0x1B, 0x5B, 0x41]] ∧
    (on_event env term s (.Keyboard (.KeyPressed .Down m))).cmds =
        [.input [0x1B, 0x5B, 0x42]] ∧
    (on_event env term s (.Keyboard (.KeyPressed .Right m))).cmds =
        [.input [0x1B, 0x5B, 0x43]] ∧
    (on_event env term s (.Keyboard (.KeyPressed .Left m))).cmds =
        [.input [0x1B, 0x5B, 0x44]] ∧
    (on_event env term s (.Keyboard (.KeyPressed .End m))).cmds =
        (if m.shift then [.scroll .Bottom] else [.input [0x1B, 0x5B, 0x46]]) ∧
    (on_event env term s (.Keyboard (.KeyPressed .Home m))).cmds =
        (if m.shift then [.scroll .Top] else [.input [0x1B, 0x5B, 0x48]]) ∧
    (on_event env term s (.Keyboard (.KeyPressed .Insert m))).cmds =
        [.input [0x1B, 0x5B, 0x32, 0x7E]] ∧
    (on_event env term s (.Keyboard (.KeyPressed .Delete m))).cmds =
        [.input [0x1B, 0x5B, 0x33, 0x7E]] ∧
    (on_event env term s (.Keyboard (.KeyPressed .PageUp m))).cmds =
        (if m.shift then [.scroll .PageUp]
         else [.input [0x1B, 0x5B, 0x35, 0x7E]]) ∧
    (on_event env term s (.Keyboard (.KeyPressed .PageDown m))).cmds =
        (if m.shift then [.scroll .PageDown]
         else [.input [0x1B, 0x5B, 0x36, 0x7E]]) :=
  ⟨rfl, rfl, rfl, rfl, rfl, rfl, rfl, rfl, rfl, rfl, rfl, rfl, rfl, rfl⟩

/-- C10: a ModifiersChanged event only updates the stored modifier
snapshot; click record, drag state, scroll accumulator, cached scale
factor and cached scrollbar rectangle are unchanged, nothing is issued
to the terminal session, and the event is reported as Ignored. -/
theorem modifiers_changed_only_updates_snapshot
    (env : Env) (term : Terminal) (s : State) (m : Modifiers) :
    on_event env term s (.Keyboard (.ModifiersChanged m)) =
        ⟨{ s with modifiers := m }, term, [], .Ignored⟩ ∧
    ({ s with modifiers := m } : State).click = s.click ∧
    ({ s with modifiers := m } : State).dragging = s.dragging ∧
    ({ s with modifiers := m } : State).scroll_pixels = s.scroll_pixels ∧
    ({ s with modifiers := m } : State).scale_factor = s.scale_factor ∧
    ({ s with modifiers := m } : State).scrollbar_rect = s.scrollbar_rect :=
  ⟨rfl, rfl, rfl, rfl, rfl, rfl⟩

/-- C7: a draw call whose computed content box has non-positive width or
height emits no draw primitives and leaves the cached state untouched. -/
theorem draw_degenerate_no_primitives (env : DrawEnv) (s : State)
    (h : drawViewW env ≤ 0 ∨ drawViewH env ≤ 0) :
    (draw env s).1 = [] ∧ (draw env s).2 = s := by
  simp only [draw]
  rw [if_pos h]
  exact ⟨rfl, rfl⟩

/-- Witness for C7 at the concrete configuration envD. -/
theorem draw_degenerate_no_primitives_witness :
    (drawViewW envD ≤ 0 ∨ drawViewH envD ≤ 0) ∧ (draw envD State.new).1 = [] := by
  have h : drawViewW envD ≤ 0 ∨ drawViewH envD ≤ 0 := by
    left
    norm_num [drawViewW, envD, asI32, ratTrunc, max_def, min_def]
  exact ⟨h, (draw_degenerate_no_primitives envD State.new h).1⟩

/-- C4 counterexample: at vertical line delta y = 1/10 the handler
issues no scroll request (the Rust cast truncates minus three fifths to
zero), while the claim's round(-y * 6) is minus one, a nonzero line
count that would have to be requested. -/
theorem line_delta_round_counterexample :
    (on_event envC term0 State.new
        (.Mouse (.WheelScrolled (.Lines 0 (1 / 10))))).cmds = [] ∧
    round ((-(1 / 10 : ℚ)) * 6) = -1 ∧ ((-1 : ℤ) ≠ 0) := by
  refine ⟨?_, by norm_num [round_eq], by norm_num⟩
  norm_num [on_event, positionIn, envC, Env.boundsRect, Rect.containsP,
    asI32, ratTrunc, max_def, min_def]

/-- C4 (amended): a line-delta wheel event over the widget resets the
running pixel accumulator to zero and issues an immediate scroll request
of trunc(-y * 6) lines, truncation toward zero by the saturating i32
cast, or no request at all when that count is zero; the issued count
never involves the previously accumulated pixel input. -/
theorem line_delta_truncated_scroll
    (env : Env) (term : Terminal) (s : State) (x y : ℚ) (p : ℚ × ℚ)
    (hp : positionIn env = some p) :
    (on_event env term s
        (.Mouse (.WheelScrolled (.Lines x y)))).state.scroll_pixels = 0 ∧
    (on_event env term s (.Mouse (.WheelScrolled (.Lines x y)))).cmds =
      (if asI32 (-y * 6) ≠ 0 then [.scroll (.Delta (-(asI32 (-y * 6))))]
       else []) := by
  refine ⟨?_, ?_⟩ <;> simp only [on_event, hp] <;> split <;> simp_all

/-- Witness for C4 at y = 1/2: three lines are requested. -/
theorem line_delta_truncated_scroll_witness :
    positionIn envC = some (10, 10) ∧
    (on_event envC term0 State.new
        (.Mouse (.WheelScrolled (.Lines 0 (1 / 2))))).cmds =
      (if asI32 (-(1 / 2 : ℚ) * 6) ≠ 0 then
        [TermCmd.scroll (.Delta (-(asI32 (-(1 / 2 : ℚ) * 6))))]
       else []) := by
  have hp : positionIn envC = some (10, 10) := by
    norm_num [positionIn, envC, Env.boundsRect, Rect.containsP]
  exact ⟨hp,
    (line_delta_truncated_scroll envC term0 State.new 0 (1 / 2) (10, 10) hp).2⟩

/-- C5 counterexample: a character received with Super held sends no
bytes but the event is reported as Captured, not as Ignored, so it is
consumed, contrary to the claim. -/
theorem super_character_captured_counterexample :
    (on_event envC term0 sLogo (.Keyboard (.CharacterReceived 'a'))).cmds =
        [] ∧
    (on_event envC term0 sLogo
        (.Keyboard (.CharacterReceived 'a'))).status = .Captured ∧
    Status.Captured ≠ Status.Ignored := by
  exact ⟨by decide, by decide, by decide⟩

/-- C5 (amended): F1 to F12 key presses send no bytes and report
Ignored; a received character with Super held, or a received non-control
character with Control held, sends no bytes but reports Captured. -/
theorem unmapped_keys_behavior (env : Env) (term : Terminal) (s : State) :
    (∀ (n : ℕ) (m : Modifiers),
        (on_event env term s (.Keyboard (.KeyPressed (.F n) m))).cmds = [] ∧
        (on_event env term s
            (.Keyboard (.KeyPressed (.F n) m))).status = .Ignored) ∧
    (∀ c : Char, s.modifiers.logo = true →
        (on_event env term s (.Keyboard (.CharacterReceived c))).cmds = [] ∧
        (on_event env term s
            (.Keyboard (.CharacterReceived c))).status = .Captured) ∧
    (∀ c : Char, s.modifiers.logo = false → s.modifiers.control = true →
        isControlChar c = false →
        (on_event env term s (.Keyboard (.CharacterReceived c))).cmds = [] ∧
        (on_event env term s
            (.Keyboard (.CharacterReceived c))).status = .Captured) := by
  refine ⟨fun n m => ⟨rfl, rfl⟩, fun c hl => ⟨?_, rfl⟩,
    fun c hl hc hcc => ⟨?_, rfl⟩⟩
  · simp [on_event, characterInput, hl]
  · simp [on_event, characterInput, hl, hc, hcc]

/-- Witness for C5 with Super plus a and with Control plus a. -/
theorem unmapped_keys_behavior_witness :
    sLogo.modifiers.logo = true ∧
    (on_event envC term0 sLogo (.Keyboard (.CharacterReceived 'a'))).cmds =
        [] ∧
    sCtrl.modifiers.logo = false ∧ sCtrl.modifiers.control = true ∧
    isControlChar 'a' = false ∧
    (on_event envC term0 sCtrl (.Keyboard (.CharacterReceived 'a'))).cmds =
        [] := by
  exact ⟨rfl, ((unmapped_keys_behavior envC term0 sLogo).2.1 'a' rfl).1,
    rfl, rfl, rfl,
    ((unmapped_keys_behavior envC term0 sCtrl).2.2 'a' rfl rfl rfl).1⟩

/-- A left press whose device position hits the buffer area classifies
the click, stores the fresh record and starts a buffer drag, touching
nothing else. -/
theorem press_in_buffer_eq
    (env : Env) (term : Terminal) (s : State) (cx cy : ℚ)
    (hc : env.cursor = some (cx, cy))
    (hb : env.boundsRect.containsP cx cy)
    (hhit : 0 ≤ (cx - env.bounds_x - env.padding_left) * s.scale_factor ∧
      (cx - env.bounds_x - env.padding_left) * s.scale_factor < env.buffer_w ∧
      0 ≤ (cy - env.bounds_y - env.padding_top) * s.scale_factor ∧
      (cy - env.bounds_y - env.padding_top) * s.scale_factor < env.buffer_h) :
    on_event env term s leftPress =
      ⟨{ s with
          click := some (classifyClick s.click env.now env.click_timing, env.now)
          dragging := some .Buffer }, term, [], .Captured⟩ := by
  simp only [leftPress, on_event, positionIn, hc]
  rw [if_pos hb]
  simp only []
  rw [if_pos hhit]

/-- C8: a primary press in the buffer area whose stored click record is
at least click_timing old is classified Single regardless of the prior
kind, and the elapsed record is replaced by the fresh record
(Single, now). -/
theorem click_reset_after_timeout
    (env : Env) (term : Terminal) (s : State) (cx cy t : ℚ) (k : ClickKind)
    (hc : env.cursor = some (cx, cy))
    (hb : env.boundsRect.containsP cx cy)
    (hhit : 0 ≤ (cx - env.bounds_x - env.padding_left) * s.scale_factor ∧
      (cx - env.bounds_x - env.padding_left) * s.scale_factor < env.buffer_w ∧
      0 ≤ (cy - env.bounds_y - env.padding_top) * s.scale_factor ∧
      (cy - env.bounds_y - env.padding_top) * s.scale_factor < env.buffer_h)
    (hclick : s.click = some (k, t))
    (hgap : env.click_timing ≤ env.now - t) :
    (on_event env term s leftPress).state.click =
      some (ClickKind.Single, env.now) := by
  rw [press_in_buffer_eq env term s cx cy hc hb hhit]
  have hlt : ¬(env.now - t < env.click_timing) := not_lt.mpr hgap
  simp [classifyClick, hclick, hlt]

/-- Concrete state holding an old Triple click record. -/
def sTriple : State := { State.new with click := some (.Triple, 0) }

/-- Witness for C8: an aged Triple record resets to Single. -/
theorem click_reset_after_timeout_witness :
    envC.click_timing ≤ envC.now - 0 ∧
    (on_event envC term0 sTriple leftPress).state.click =
      some (ClickKind.Single, envC.now) := by
  have hb : envC.boundsRect.containsP 10 10 := by
    norm_num [envC, Env.boundsRect, Rect.containsP]
  have hhit : 0 ≤ ((10 : ℚ) - envC.bounds_x - envC.padding_left) *
        sTriple.scale_factor ∧
      ((10 : ℚ) - envC.bounds_x - envC.padding_left) * sTriple.scale_factor <
        envC.buffer_w ∧
      0 ≤ ((10 : ℚ) - envC.bounds_y - envC.padding_top) *
        sTriple.scale_factor ∧
      ((10 : ℚ) - envC.bounds_y - envC.padding_top) * sTriple.scale_factor <
        envC.buffer_h := by
    norm_num [envC, sTriple, State.new]
  have hgap : envC.click_timing ≤ envC.now - 0 := by norm_num [envC]
  exact ⟨hgap, click_reset_after_timeout envC term0 sTriple 10 10 0 .Triple
    rfl hb hhit rfl hgap⟩

/-- State after the first press of the counterexample run. -/
def s1c : State :=
  { State.new with click := some (.Single, 0), dragging := some .Buffer }

/-- State after the second press of the counterexample run. -/
def s2c : State := { s1c with click := some (.Double, 1) }

/-- State after the third press of the counterexample run. -/
def s3c : State := { s2c with click := some (.Triple, 2) }

/-- C2 counterexample: three qualifying presses at times 0, 1, 2 with
threshold 10 classify as Single, Double, Triple; the claimed period-four
sequence Single, Double, Double, Triple would make the third press a
Double, but the code classifies it Triple. -/
theorem click_cycle_counterexample :
    (runEvents term0 State.new
        [({ envC with now := 0 }, leftPress),
          ({ envC with now := 1 }, leftPress),
          ({ envC with now := 2 }, leftPress)]).click =
      some (ClickKind.Triple, 2) ∧
    ClickKind.Triple ≠ ClickKind.Double := by
  have hb : ∀ q : ℚ, ({ envC with now := q } : Env).boundsRect.containsP 10 10 := by
    intro q
    norm_num [envC, Env.boundsRect, Rect.containsP]
  have h0 : on_event { envC with now := 0 } term0 State.new leftPress =
      ⟨s1c, term0, [], .Captured⟩ := by
    rw [press_in_buffer_eq _ _ _ 10 10 rfl (hb 0) (by norm_num [envC, State.new])]
    simp [classifyClick, s1c, State.new, envC]
  have h1 : on_event { envC with now := 1 } term0 s1c leftPress =
      ⟨s2c, term0, [], .Captured⟩ := by
    rw [press_in_buffer_eq _ _ _ 10 10 rfl (hb 1)
      (by norm_num [envC, s1c, State.new])]
    norm_num [classifyClick, nextClickKind, s2c, s1c, State.new, envC]
  have h2 : on_event { envC with now := 2 } term0 s2c leftPress =
      ⟨s3c, term0, [], .Captured⟩ := by
    rw [press_in_buffer_eq _ _ _ 10 10 rfl (hb 2)
      (by norm_num [envC, s2c, s1c, State.new])]
    norm_num [classifyClick, nextClickKind, s3c, s2c, s1c, State.new, envC]
  refine ⟨?_, by decide⟩
  simp only [runEvents, h0, h1, h2]
  simp [s3c, s2c, s1c]

/-- Advancing once moves one step along the period-three cycle. -/
theorem cycleKind3_succ (i : ℕ) :
    nextClickKind (cycleKind3 i) = cycleKind3 (i + 1) := by
  have h : i % 3 = 0 ∨ i % 3 = 1 ∨ i % 3 = 2 := by omega
  rcases h with h | h | h
  · have h1 : (i + 1) % 3 = 1 := by omega
    simp [cycleKind3, nextClickKind, h, h1]
  · have h1 : (i + 1) % 3 = 2 := by omega
    simp [cycleKind3, nextClickKind, h, h1]
  · have h1 : (i + 1) % 3 = 0 := by omega
    simp [cycleKind3, nextClickKind, h, h1]

/-- Peeling the head off a mapped range of cycle positions. -/
theorem range_map_cycleKind3 (j n : ℕ) :
    (List.range (n + 1)).map (fun i => cycleKind3 (j + i)) =
      cycleKind3 j :: (List.range n).map (fun i => cycleKind3 (j + 1 + i)) := by
  rw [List.range_succ_eq_map]
  rw [List.map_cons, List.map_map]
  have h2 : ((fun i => cycleKind3 (j + i)) ∘ Nat.succ) =
      (fun i => cycleKind3 (j + 1 + i)) := by
    funext i
    simp only [Function.comp_apply]
    exact congrArg cycleKind3 (by omega)
  rw [Nat.add_zero, h2]

/-- Classification from a stored record on the cycle continues the cycle
while all gaps stay below the threshold. -/
theorem clickKindsAux_cycle (timing : ℚ) :
    ∀ (ts : List ℚ) (j : ℕ) (t : ℚ), gapsLt timing (t :: ts) →
      clickKindsAux timing (some (cycleKind3 j, t)) ts =
        (List.range ts.length).map (fun i => cycleKind3 (j + 1 + i)) := by
  intro ts
  induction ts with
  | nil => intro j t _; simp [clickKindsAux]
  | cons t2 rest ih =>
      intro j t h
      obtain ⟨hgap, hrest⟩ := h
      simp only [clickKindsAux, classifyClick]
      rw [if_pos hgap, cycleKind3_succ, ih (j + 1) t2 hrest]
      rw [List.length_cons, range_map_cycleKind3 (j + 1) rest.length]

/-- C2 (amended): for any threshold and any press sequence whose
consecutive gaps are all strictly below it, the click kinds follow the
period-three cycle Single, Double, Triple, Single, advancing once per
qualifying repeat and wrapping after Triple. -/
theorem click_cycle_period_three (timing : ℚ) (times : List ℚ)
    (h : gapsLt timing times) :
    clickKinds timing times = (List.range times.length).map cycleKind3 := by
  cases times with
  | nil => simp [clickKinds, clickKindsAux]
  | cons t ts =>
      have hzero : (List.range (ts.length + 1)).map cycleKind3 =
          (List.range (ts.length + 1)).map (fun i => cycleKind3 (0 + i)) := by
        apply List.map_congr_left
        intro i _
        exact congrArg cycleKind3 (by omega)
      have hs : classifyClick none t timing = cycleKind3 0 := rfl
      simp only [clickKinds, clickKindsAux, hs]
      rw [clickKindsAux_cycle timing ts 0 t h]
      rw [List.length_cons, hzero, range_map_cycleKind3 0 ts.length]

/-- Witness for C2: three presses with gaps below threshold ten. -/
theorem click_cycle_period_three_witness :
    gapsLt 10 [0, 1, 2] ∧
    clickKinds 10 [0, 1, 2] =
      [ClickKind.Single, ClickKind.Double, ClickKind.Triple] := by
  have h : gapsLt (10 : ℚ) [0, 1, 2] := by norm_num [gapsLt]
  refine ⟨h, ?_⟩
  have h2 := click_cycle_period_three 10 [0, 1, 2] h
  simpa [cycleKind3, List.range_succ] using h2

/-- The first consumption loop preserves the quantity acc plus
line_height times lines. -/
theorem scrollLoopNeg_inv (L acc : ℚ) (lines : ℤ) :
    (scrollLoopNeg L acc lines).1 + L * ((scrollLoopNeg L acc lines).2 : ℚ) =
      acc + L * (lines : ℚ) := by
  induction acc, lines using scrollLoopNeg.induct L with
  | case1 acc lines h ih =>
      rw [scrollLoopNeg, dif_pos h, ih]
      push_cast
      ring
  | case2 acc lines h =>
      rw [scrollLoopNeg, dif_neg h]

/-- The first consumption loop leaves the accumulator strictly above
minus one line height. -/
theorem scrollLoopNeg_gt (L acc : ℚ) (lines : ℤ) :
    0 < L → -L < (scrollLoopNeg L acc lines).1 := by
  induction acc, lines using scrollLoopNeg.induct L with
  | case1 acc lines h ih =>
      intro hL
      rw [scrollLoopNeg, dif_pos h]
      exact ih hL
  | case2 acc lines h =>
      intro hL
      rw [scrollLoopNeg, dif_neg h]
      push_neg at h
      exact h hL

/-- The second consumption loop preserves the quantity acc plus
line_height times lines. -/
theorem scrollLoopPos_inv (L acc : ℚ) (lines : ℤ) :
    (scrollLoopPos L acc lines).1 + L * ((scrollLoopPos L acc lines).2 : ℚ) =
      acc + L * (lines : ℚ) := by
  induction acc, lines using scrollLoopPos.induct L with
  | case1 acc lines h ih =>
      rw [scrollLoopPos, dif_pos h, ih]
      push_cast
      ring
  | case2 acc lines h =>
      rw [scrollLoopPos, dif_neg h]

/-- Started strictly above minus one line height, the second loop ends
with the accumulator strictly inside the open line-height interval. -/
theorem scrollLoopPos_bounds (L acc : ℚ) (lines : ℤ) :
    0 < L → -L < acc →
      -L < (scrollLoopPos L acc lines).1 ∧ (scrollLoopPos L acc lines).1 < L := by
  induction acc, lines using scrollLoopPos.induct L with
  | case1 acc lines h ih =>
      intro hL _
      rw [scrollLoopPos, dif_pos h]
      exact ih hL (by linarith [h.2])
  | case2 acc lines h =>
      intro hL hacc
      rw [scrollLoopPos, dif_neg h]
      push_neg at h
      exact ⟨hacc, h hL⟩

/-- One pixel wheel event preserves pixels: final accumulator plus
line_height times the event's line count equals the old accumulator
minus six times the vertical delta. -/
theorem pixelScrollStep_inv (L acc y : ℚ) :
    (pixelScrollStep L acc y).1 + L * ((pixelScrollStep L acc y).2 : ℚ) =
      acc - y * 6 := by
  simp only [pixelScrollStep]
  rw [scrollLoopPos_inv, scrollLoopNeg_inv]
  push_cast
  ring

/-- After any pixel wheel event the accumulator lies strictly inside
the open interval from minus one line height to one line height. -/
theorem pixelScrollStep_bounds (L acc y : ℚ) (hL : 0 < L) :
    -L < (pixelScrollStep L acc y).1 ∧ (pixelScrollStep L acc y).1 < L := by
  simp only [pixelScrollStep]
  exact scrollLoopPos_bounds L _ _ hL (scrollLoopNeg_gt L _ _ hL)

/-- Folding pixel wheel events preserves pixels in total. -/
theorem pixelScrollRun_inv (L : ℚ) (ys : List ℚ) : ∀ acc : ℚ,
    (pixelScrollRun L acc ys).1 + L * ((pixelScrollRun L acc ys).2 : ℚ) =
      acc - 6 * ys.sum := by
  induction ys with
  | nil => intro acc; simp [pixelScrollRun]
  | cons y ys ih =>
      intro acc
      simp only [pixelScrollRun]
      have hstep := pixelScrollStep_inv L acc y
      have hrest := ih (pixelScrollStep L acc y).1
      rw [List.sum_cons]
      push_cast at hrest hstep ⊢
      linear_combination hrest + hstep

/-- Folding pixel wheel events keeps the accumulator strictly inside
the open line-height interval. -/
theorem pixelScrollRun_bounds (L : ℚ) (ys : List ℚ) (hL : 0 < L) :
    ∀ acc : ℚ, -L < acc → acc < L →
      -L < (pixelScrollRun L acc ys).1 ∧ (pixelScrollRun L acc ys).1 < L := by
  induction ys with
  | nil =>
      intro acc h1 h2
      simpa [pixelScrollRun] using And.intro h1 h2
  | cons y ys ih =>
      intro acc _ _
      simp only [pixelScrollRun]
      exact ih _ (pixelScrollStep_bounds L acc y hL).1
        (pixelScrollStep_bounds L acc y hL).2

/-- C3: over a buffer with constant positive line height L, a sequence
of pixel wheel events whose accumulated pixel total (per event, minus
six times the vertical delta) equals exactly N times L requests exactly
N whole lines in total, and after each single event the accumulator
lies strictly within the open interval (-L, L). -/
theorem pixel_scroll_exact_lines (L : ℚ) (ys : List ℚ) (N : ℤ)
    (hL : 0 < L) (hsum : -6 * ys.sum = N * L) :
    (pixelScrollRun L 0 ys).2 = N ∧
    (∀ acc y : ℚ,
      -L < (pixelScrollStep L acc y).1 ∧ (pixelScrollStep L acc y).1 < L) := by
  refine ⟨?_, fun acc y => pixelScrollStep_bounds L acc y hL⟩
  have hinv := pixelScrollRun_inv L ys 0
  have hbounds := pixelScrollRun_bounds L ys hL 0 (by linarith) (by linarith)
  set a := (pixelScrollRun L 0 ys).1 with ha_def
  set t := (pixelScrollRun L 0 ys).2 with ht_def
  have ha : a = L * ((N : ℚ) - (t : ℚ)) := by linear_combination hinv + hsum
  have h1 : -1 < (N : ℚ) - (t : ℚ) := by
    by_contra hc
    push_neg at hc
    have hm : L * ((N : ℚ) - (t : ℚ)) ≤ L * (-1) :=
      mul_le_mul_of_nonneg_left hc (le_of_lt hL)
    have := hbounds.1
    rw [ha] at this
    linarith
  have h2 : (N : ℚ) - (t : ℚ) < 1 := by
    by_contra hc
    push_neg at hc
    have hm : L * 1 ≤ L * ((N : ℚ) - (t : ℚ)) :=
      mul_le_mul_of_nonneg_left hc (le_of_lt hL)
    have := hbounds.2
    rw [ha] at this
    linarith
  have hz1 : ((N - t : ℤ) : ℚ) < 1 := by push_cast; linarith
  have hz2 : (-1 : ℚ) < ((N - t : ℤ) : ℚ) := by push_cast; linarith
  have hzz1 : (N - t : ℤ) < 1 := by exact_mod_cast hz1
  have hzz2 : (-1 : ℤ) < (N - t : ℤ) := by exact_mod_cast hz2
  omega

/-- Witness for C3: line height two, one event of vertical delta minus
one, six pixels, three lines. -/
theorem pixel_scroll_exact_lines_witness :
    (0 : ℚ) < 2 ∧ (-6 : ℚ) * List.sum [(-1 : ℚ)] = ((3 : ℤ) : ℚ) * 2 ∧
    (pixelScrollRun 2 0 [-1]).2 = 3 := by
  have hL : (0 : ℚ) < 2 := by norm_num
  have hsum : (-6 : ℚ) * List.sum [(-1 : ℚ)] = ((3 : ℤ) : ℚ) * 2 := by
    norm_num
  exact ⟨hL, hsum, (pixel_scroll_exact_lines 2 [-1] 3 hL hsum).1⟩

/-- A pointer move while in scrollbar drag issues exactly one absolute
scroll request anchored at the stored start position, and changes no
widget state. -/
theorem move_in_scrollbar_eq
    (env : Env) (term : Terminal) (s : State) (mx my sy : ℚ) (ss : ℚ × ℚ)
    (hc : env.cursor = some (mx, my))
    (hd : s.dragging = some (.Scrollbar sy ss)) :
    on_event env term s (.Mouse .CursorMoved) =
      ⟨s,
        term.scroll_to
          (ss.1 + (devY env s.scale_factor my - sy) / env.buffer_h),
        [.scrollTo
          (ss.1 + (devY env s.scale_factor my - sy) / env.buffer_h)],
        .Captured⟩ := by
  simp only [on_event, hd, hc, devY]

/-- Any run of pointer moves from a scrollbar drag leaves the state
unchanged and issues one anchored absolute scroll request per move. -/
theorem runMoves_scrollbar (env : Env) (sy : ℚ) (ss : ℚ × ℚ) :
    ∀ (pts : List (ℚ × ℚ)) (term : Terminal) (s : State),
      s.dragging = some (.Scrollbar sy ss) →
      (runMoves env term s pts).1 = s ∧
      (runMoves env term s pts).2.2 =
        pts.map (fun p => TermCmd.scrollTo
          (ss.1 + (devY env s.scale_factor p.2 - sy) / env.buffer_h)) := by
  intro pts
  induction pts with
  | nil => intro term s _; simp [runMoves]
  | cons p rest ih =>
      intro term s hd
      have hm := move_in_scrollbar_eq { env with cursor := some p } term s
        p.1 p.2 sy ss rfl hd
      refine ⟨?_, ?_⟩
      · simp only [runMoves, hm]
        exact (ih _ s hd).1
      · simp only [runMoves, hm, List.map_cons]
        rw [(ih _ s hd).2]
        simp [devY]

/-- A left press in the scrollbar gutter outside the thumb jump-scrolls
to the click's device ratio, then anchors a scrollbar drag at the new
reported scroll position. -/
theorem press_in_gutter_eq
    (env : Env) (term : Terminal) (s : State) (cx cy : ℚ)
    (hc : env.cursor = some (cx, cy))
    (hb : env.boundsRect.containsP cx cy)
    (hmiss : ¬(0 ≤ (cx - env.bounds_x - env.padding_left) * s.scale_factor ∧
      (cx - env.bounds_x - env.padding_left) * s.scale_factor < env.buffer_w ∧
      0 ≤ (cy - env.bounds_y - env.padding_top) * s.scale_factor ∧
      (cy - env.bounds_y - env.padding_top) * s.scale_factor < env.buffer_h))
    (hthumb : ¬ s.scrollbar_rect.containsP
      (cx - env.bounds_x - env.padding_left)
      (cy - env.bounds_y - env.padding_top))
    (hgutter : s.scrollbar_rect.x ≤ cx - env.bounds_x - env.padding_left ∧
      cx - env.bounds_x - env.padding_left <
        s.scrollbar_rect.x + s.scrollbar_rect.width) :
    on_event env term s leftPress =
      ⟨{ s with dragging := some (.Scrollbar
            (devY env s.scale_factor cy)
            ((term.scroll_to
              (devY env s.scale_factor cy / env.buffer_h)).scrollbar)) },
        term.scroll_to (devY env s.scale_factor cy / env.buffer_h),
        [.scrollTo (devY env s.scale_factor cy / env.buffer_h)],
        .Captured⟩ := by
  simp only [leftPress, on_event, positionIn, hc]
  rw [if_pos hb]
  simp only []
  rw [if_neg hmiss, if_neg hthumb, if_pos hgutter]
  simp only [devY]

/-- C6: after a jump-click into the scrollbar gutter, any sequence of
pointer moves ending at a point mp requests a final absolute scroll
fraction equal to the jump fraction (the scroll position reported right
after the jump) plus the total device-space vertical displacement from
the jump point divided by the buffer height, independent of the
intermediate move points that carried the displacement. -/
theorem scrollbar_anchored_drag
    (env : Env) (term : Terminal) (s : State) (cx cy : ℚ)
    (hc : env.cursor = some (cx, cy))
    (hb : env.boundsRect.containsP cx cy)
    (hmiss : ¬(0 ≤ (cx - env.bounds_x - env.padding_left) * s.scale_factor ∧
      (cx - env.bounds_x - env.padding_left) * s.scale_factor < env.buffer_w ∧
      0 ≤ (cy - env.bounds_y - env.padding_top) * s.scale_factor ∧
      (cy - env.bounds_y - env.padding_top) * s.scale_factor < env.buffer_h))
    (hthumb : ¬ s.scrollbar_rect.containsP
      (cx - env.bounds_x - env.padding_left)
      (cy - env.bounds_y - env.padding_top))
    (hgutter : s.scrollbar_rect.x ≤ cx - env.bounds_x - env.padding_left ∧
      cx - env.bounds_x - env.padding_left <
        s.scrollbar_rect.x + s.scrollbar_rect.width) :
    ∀ (inter : List (ℚ × ℚ)) (mp : ℚ × ℚ),
      lastScrollTo ((runMoves env
          (on_event env term s leftPress).terminal
          (on_event env term s leftPress).state (inter ++ [mp])).2.2) =
        some ((term.scroll_to
            (devY env s.scale_factor cy / env.buffer_h)).scrollbar.1 +
          (devY env s.scale_factor mp.2 - devY env s.scale_factor cy) /
            env.buffer_h) := by
  intro inter mp
  rw [press_in_gutter_eq env term s cx cy hc hb hmiss hthumb hgutter]
  have hr := runMoves_scrollbar env (devY env s.scale_factor cy)
    ((term.scroll_to (devY env s.scale_factor cy / env.buffer_h)).scrollbar)
    (inter ++ [mp])
    (term.scroll_to (devY env s.scale_factor cy / env.buffer_h))
    { s with dragging := some (.Scrollbar
        (devY env s.scale_factor cy)
        ((term.scroll_to
          (devY env s.scale_factor cy / env.buffer_h)).scrollbar)) }
    rfl
  rw [hr.2, List.map_append]
  unfold lastScrollTo
  rw [List.map_singleton, List.getLast?_concat]

/-- Concrete configuration for the C6 witness: cursor in the scrollbar
gutter below the thumb. -/
def envC6 : Env := { envC with cursor := some (85, 55) }

/-- Concrete state with a cached thumb rectangle of x 80, width 8,
height 50. -/
def s6 : State := { State.new with scrollbar_rect := ⟨80, 0, 8, 50⟩ }

/-- Witness for C6: jump at device y 55 over buffer height 60 gives
fraction 11/12; a later move to device y 58 requests 29/30. -/
theorem scrollbar_anchored_drag_witness :
    lastScrollTo ((runMoves envC6
        (on_event envC6 term0 s6 leftPress).terminal
        (on_event envC6 term0 s6 leftPress).state
        [(85, 56), (85, 58)]).2.2) = some (29 / 30) := by
  have hb : envC6.boundsRect.containsP 85 55 := by
    norm_num [envC6, envC, Env.boundsRect, Rect.containsP]
  have hmiss : ¬(0 ≤ ((85 : ℚ) - envC6.bounds_x - envC6.padding_left) *
        s6.scale_factor ∧
      ((85 : ℚ) - envC6.bounds_x - envC6.padding_left) * s6.scale_factor <
        envC6.buffer_w ∧
      0 ≤ ((55 : ℚ) - envC6.bounds_y - envC6.padding_top) *
        s6.scale_factor ∧
      ((55 : ℚ) - envC6.bounds_y - envC6.padding_top) * s6.scale_factor <
        envC6.buffer_h) := by
    norm_num [envC6, envC, s6, State.new]
  have hthumb : ¬ s6.scrollbar_rect.containsP
      ((85 : ℚ) - envC6.bounds_x - envC6.padding_left)
      ((55 : ℚ) - envC6.bounds_y - envC6.padding_top) := by
    norm_num [envC6, envC, s6, State.new, Rect.containsP]
  have hgutter : s6.scrollbar_rect.x ≤
        (85 : ℚ) - envC6.bounds_x - envC6.padding_left ∧
      (85 : ℚ) - envC6.bounds_x - envC6.padding_left <
        s6.scrollbar_rect.x + s6.scrollbar_rect.width := by
    norm_num [envC6, envC, s6, State.new]
  have h := scrollbar_anchored_drag envC6 term0 s6 85 55 rfl hb hmiss hthumb
    hgutter [(85, 56)] (85, 58)
  have hval : (term0.scroll_to
        (devY envC6 s6.scale_factor 55 / envC6.buffer_h)).scrollbar.1 +
      (devY envC6 s6.scale_factor 58 - devY envC6 s6.scale_factor 55) /
        envC6.buffer_h = 29 / 30 := by
    norm_num [devY, envC6, envC, s6, State.new, term0, Terminal.scroll_to,
      Terminal.scrollbar]
  rw [show [((85 : ℚ), (56 : ℚ)), (85, 58)] = [((85 : ℚ), (56 : ℚ))] ++
    [((85 : ℚ), (58 : ℚ))] from rfl]
  rw [h, hval]

/-- The all-zero rectangle contains no point. -/
theorem zero_rect_not_contains (a b : ℚ) : ¬ Rect.zero.containsP a b := by
  intro h
  rcases h with ⟨h1, h2, _, _⟩
  simp only [Rect.zero] at h1 h2
  linarith

/-- With a zero cached scrollbar rectangle, one event keeps the
rectangle zero and cannot create a scrollbar drag. -/
theorem on_event_zero_rect_inv (env : Env) (term : Terminal) (s : State)
    (e : Event) (h1 : s.scrollbar_rect = Rect.zero)
    (h2 : noScrollbarDrag s) :
    (on_event env term s e).state.scrollbar_rect = Rect.zero ∧
    noScrollbarDrag (on_event env term s e).state := by
  rcases e with ke | me
  · rcases ke with ⟨kc, m⟩ | ⟨m⟩ | ⟨c⟩
    · exact ⟨h1, h2⟩
    · refine ⟨by simpa using h1, ?_⟩
      simpa [noScrollbarDrag] using h2
    · exact ⟨h1, h2⟩
  · rcases me with ⟨b⟩ | ⟨b⟩ | _ | ⟨d⟩
    · rcases hp : positionIn env with _ | p
      · simp only [on_event, hp]
        exact ⟨h1, h2⟩
      · rcases b with _ | _ | _
        · simp only [on_event, hp]
          rcases p with ⟨px, py⟩
          split_ifs with hA hB hC
          · refine ⟨by simpa using h1, ?_⟩
            simp [noScrollbarDrag]
          · exfalso
            rw [h1] at hB
            exact zero_rect_not_contains _ _ hB
          · exfalso
            rw [h1] at hC
            simp only [Rect.zero] at hC
            rcases hC with ⟨hC1, hC2⟩
            linarith
          · exact ⟨h1, h2⟩
        · simp only [on_event, hp]
          exact ⟨h1, h2⟩
        · simp only [on_event, hp]
          exact ⟨h1, h2⟩
    · rcases b with _ | _ | _
      · refine ⟨by simpa using h1, Or.inl ?_⟩
        simp [on_event]
      · exact ⟨h1, h2⟩
      · exact ⟨h1, h2⟩
    · rcases hd : s.dragging with _ | d
      · simp only [on_event, hd]
        exact ⟨h1, h2⟩
      · rcases hcur : env.cursor with _ | p
        · simp only [on_event, hd, hcur]
          exact ⟨h1, h2⟩
        · rcases d with _ | ⟨sy, ss⟩
          · simp only [on_event, hd, hcur]
            exact ⟨h1, h2⟩
          · simp only [on_event, hd, hcur]
            rcases p with ⟨px, py⟩
            exact ⟨h1, h2⟩
    · rcases hp : positionIn env with _ | p
      · simp only [on_event, hp]
        exact ⟨h1, h2⟩
      · rcases d with ⟨x, y⟩ | ⟨x, y⟩
        · simp only [on_event, hp]
          split_ifs
          · refine ⟨by simpa using h1, ?_⟩
            simpa [noScrollbarDrag] using h2
          · refine ⟨by simpa using h1, ?_⟩
            simpa [noScrollbarDrag] using h2
        · simp only [on_event, hp]
          split_ifs
          · refine ⟨by simpa using h1, ?_⟩
            simpa [noScrollbarDrag] using h2
          · refine ⟨by simpa using h1, ?_⟩
            simpa [noScrollbarDrag] using h2

/-- Folding any draw-free event sequence preserves the zero scrollbar
rectangle and the absence of a scrollbar drag. -/
theorem runEvents_no_scrollbar (steps : List (Env × Event)) :
    ∀ (term : Terminal) (s : State), s.scrollbar_rect = Rect.zero →
      noScrollbarDrag s →
      (runEvents term s steps).scrollbar_rect = Rect.zero ∧
      noScrollbarDrag (runEvents term s steps) := by
  induction steps with
  | nil => intro term s hA hB; exact ⟨hA, hB⟩
  | cons st rest ih =>
      intro term s hA hB
      rcases st with ⟨env, e⟩
      simp only [runEvents]
      have h := on_event_zero_rect_inv env term s e hA hB
      exact ih _ _ h.1 h.2

/-- C9: a freshly created widget state caches the zero scrollbar
rectangle and scale factor one, and before any completed draw call no
sequence of input events can enter the scrollbar drag state: every hit
test against the empty cached rectangle fails. -/
theorem fresh_state_no_scrollbar_drag :
    State.new.scrollbar_rect = Rect.zero ∧ State.new.scale_factor = 1 ∧
    ∀ (steps : List (Env × Event)) (term : Terminal),
      noScrollbarDrag (runEvents term State.new steps) :=
  ⟨rfl, rfl, fun steps term =>
    (runEvents_no_scrollbar steps term State.new rfl (Or.inl rfl)).2⟩

end CosmicTerm
